import Mathlib

/-!
# Verification of the mcp-google-docs spreadsheet range/style translation engine

Shallow embedding of the pure core of `src/google_sheets.py`:

* `parse_range`       — `GoogleSheets._parse_range`
* `parse_html_tags`   — `GoogleSheets._parse_html_tags` (markup parser, colors)
* `decodeColor`       — the inline hex-color decoding in `_parse_html_tags`
* `buildRows`, `perUpdateRequests`, `batchBuildRequests`
                      — the request-construction loop of `GoogleSheets.batch_update_cells`
* `update_cells_m`, `batch_update_cells_m`, `list_sheets_m`
                      — the public methods, with the external service calls passed in
                        as explicit `Except`-valued arguments (`Except.error` models a
                        raised Python exception crossing that boundary).

Python strings are embedded as `List Char`; Python dicts with a fixed key
vocabulary are embedded as structures of `Option`-valued fields (a `none` field
models an absent key).  Machine-level caveats of the embedding are noted on the
individual definitions.
-/

/-- Python `str.find(c, start)` on a character list: index of the first occurrence
of `c` at position `≥ start`, or `none` (Python returns `-1`). -/
def pyFindFrom (c : Char) (cs : List Char) (start : Nat) : Option Nat :=
  go cs 0
where
  go : List Char → Nat → Option Nat
    | [], _ => none
    | x :: xs, i => if start ≤ i ∧ x = c then some i else go xs (i + 1)

/-- Python `str.find(c)`. -/
def pyFind (c : Char) (cs : List Char) : Option Nat :=
  pyFindFrom c cs 0

/-- Python `str.split(sep)` for a single-character separator: splits at every
occurrence, keeping empty parts. -/
def pySplit (sep : Char) : List Char → List (List Char)
  | [] => [[]]
  | c :: cs =>
    if c = sep then [] :: pySplit sep cs
    else
      match pySplit sep cs with
      | [] => [[c]]
      | p :: ps => (c :: p) :: ps

/-- Numeric value of a decimal-digit character list (most significant first). -/
def decVal (cs : List Char) : Nat :=
  cs.foldl (fun a c => 10 * a + (c.toNat - 48)) 0

/-- Python `int(s)` restricted to plain decimal-digit strings: `some` value when
`s` is nonempty and all characters are decimal digits, `none` (a raised
`ValueError`) otherwise.  Python also accepts signs and surrounding whitespace,
which never occur in the inputs the claims quantify over. -/
def pyIntDec (cs : List Char) : Option Nat :=
  if cs ≠ [] ∧ cs.all Char.isDigit then some (decVal cs) else none

/-- Hexadecimal digit predicate: `0-9`, `a-f`, `A-F` (the digits Python
`int(·, 16)` accepts). -/
def isHexDig (c : Char) : Bool :=
  c.isDigit || ('a' ≤ c && c ≤ 'f') || ('A' ≤ c && c ≤ 'F')

/-- Value of one hexadecimal digit. -/
def hexDigitVal (c : Char) : Nat :=
  if c.isDigit then c.toNat - 48
  else if 'a' ≤ c ∧ c ≤ 'f' then c.toNat - 87
  else c.toNat - 55

/-- Numeric value of a hex-digit character list (most significant first). -/
def hexVal (cs : List Char) : Nat :=
  cs.foldl (fun a c => 16 * a + hexDigitVal c) 0

/-- Python `int(s, 16)` restricted to plain hex-digit strings: `some` value when
`s` is nonempty and all characters are hex digits, `none` (a raised
`ValueError`) otherwise.  Python also accepts signs, a `0x` prefix and
surrounding whitespace, none of which occur in the inputs the claims cover. -/
def pyIntHex (cs : List Char) : Option Nat :=
  if cs ≠ [] ∧ cs.all isHexDig then some (hexVal cs) else none

/-- The result record of `GoogleSheets._parse_range`: the Python dict with keys
`startRowIndex`, `endRowIndex`, `startColumnIndex`, `endColumnIndex`. -/
structure RangeInfo where
  startRowIndex : Int
  endRowIndex : Int
  startColumnIndex : Int
  endColumnIndex : Int
deriving DecidableEq, Repr

/-- Column letter to zero-based index, as in the source:
`ord(col.upper()) - ord('A')`. -/
def colIndex (c : Char) : Int :=
  (c.toUpper.toNat : Int) - 65

/-- `GoogleSheets._parse_range` (google_sheets.py lines 374-401).  `none` models
a raised exception (bad row digits, an empty reference, or a string with more
than one `:`, which makes the two-variable unpacking of `split(':')` fail). -/
def parse_range (cs : List Char) : Option RangeInfo :=
  if ':' ∈ cs then
    match pySplit ':' cs with
    | [s, e] => do
      let sc ← s.head?
      let sr ← pyIntDec (s.drop 1)
      let ec ← e.head?
      let er ← pyIntDec (e.drop 1)
      some ⟨(sr : Int) - 1, (er : Int) - 1, colIndex sc, colIndex ec⟩
    | _ => none
  else do
    let c ← cs.head?
    let r ← pyIntDec (cs.drop 1)
    some ⟨(r : Int) - 1, (r : Int), colIndex c, colIndex c + 1⟩

/-- An RGB color triple as produced by the inline color decoding of
`_parse_html_tags`; each channel is `int(pair, 16) / 255`. -/
structure RGB where
  red : ℚ
  green : ℚ
  blue : ℚ
deriving DecidableEq, Repr

/-- One color channel: `int(pair, 16) / 255` for a pair value `n`. -/
def mkChan (n : Nat) : ℚ := (n : ℚ) / 255

/-- The hex-color decoding inlined in `_parse_html_tags` (google_sheets.py lines
350-355, identical in the `font` and `bg` branches): strip an optional leading
`#`, then convert the slices `[0:2]`, `[2:4]`, `[4:6]` with `int(·, 16) / 255`.
`none` models the raised `ValueError` when a slice is empty or non-hex. -/
def decodeColor (color : List Char) : Option RGB :=
  let c := if color.head? = some '#' then color.drop 1 else color
  do
    let r ← pyIntHex ((c.drop 0).take 2)
    let g ← pyIntHex ((c.drop 2).take 2)
    let b ← pyIntHex ((c.drop 4).take 2)
    some ⟨mkChan r, mkChan g, mkChan b⟩

/-- Strip characters satisfying `p` from both ends (Python `str.strip(chars)`). -/
def pyStripSet (p : Char → Bool) (cs : List Char) : List Char :=
  ((cs.dropWhile p).reverse.dropWhile p).reverse

/-- Python `str.strip()`.  Modelled over the ASCII whitespace characters
(space, tab, CR, LF) covered by `Char.isWhitespace`; Python also strips some
rarer whitespace characters that never occur in the claims' inputs. -/
def pyStrip (cs : List Char) : List Char :=
  pyStripSet Char.isWhitespace cs

/-- Python `str.strip("'\"")`: strip single and double quotes from both ends. -/
def pyStripQuotes (cs : List Char) : List Char :=
  pyStripSet (fun c => c = '\'' || c = '"') cs

/-- Helper for `pySplitWs`: accumulates the current chunk (reversed). -/
def pySplitWsAux : List Char → List Char → List (List Char)
  | [], acc => if acc = [] then [] else [acc.reverse]
  | c :: cs, acc =>
    if c.isWhitespace then
      if acc = [] then pySplitWsAux cs [] else acc.reverse :: pySplitWsAux cs []
    else pySplitWsAux cs (c :: acc)

/-- Python `str.split()` with no argument: split on runs of whitespace,
discarding empty chunks. -/
def pySplitWs (cs : List Char) : List (List Char) :=
  pySplitWsAux cs []

/-- A spreadsheet color dict as built by `_parse_html_tags`
(`{'red': r, 'green': g, 'blue': b, 'alpha': 1}`) or supplied by a caller's
default format; `alpha := none` models a dict without the `alpha` key. -/
structure Color where
  red : ℚ
  green : ℚ
  blue : ℚ
  alpha : Option ℚ
deriving DecidableEq, Repr

/-- The `style` dict accumulated by `_parse_html_tags`; a `none` field models an
absent key. -/
structure Style where
  bold : Option Bool := none
  italic : Option Bool := none
  strikethrough : Option Bool := none
  underline : Option Bool := none
  fontSize : Option Nat := none
  foregroundColor : Option Color := none
  backgroundColor : Option Color := none
  horizontalAlignment : Option (List Char) := none
deriving DecidableEq, Repr

/-- The attribute dict of one tag (google_sheets.py lines 325-333): when the tag
contains a space, split `tag[tag.find(' ')+1:-1]` on whitespace and keep the
`key=value` pieces, lower-casing keys and stripping quotes from values.  The
resulting assoc list carries Python-dict semantics: a later binding of the same
key overwrites an earlier one, so lookups take the last binding. -/
def pyAttrs (tag : List Char) : List (List Char × List Char) :=
  if ' ' ∈ tag then
    (pySplitWs ((tag.drop ((pyFind ' ' tag).getD 0 + 1)).dropLast)).filterMap (fun attr =>
      if '=' ∈ attr then
        let key := attr.takeWhile (fun c => c ≠ '=')
        some (key.map Char.toLower, pyStripQuotes (attr.drop (key.length + 1)))
      else none)
  else []

/-- Python-dict lookup on the assoc list built by `pyAttrs`: the last binding of
the key wins. -/
def pyDictGet (d : List (List Char × List Char)) (k : List Char) : Option (List Char) :=
  ((d.filter (fun p => p.1 = k)).getLast?).map (fun p => p.2)

/-- Processing of one extracted tag (google_sheets.py lines 319-367).  The tag
still carries its `<` and `>`.  Closing tags are discarded.  `tag_name` is
`tag[1:].split()[0].lower()` — for an attribute-less tag such as `<b>` this
keeps the trailing `>` (`"b>"`), so no style branch matches; only tags with a
space (such as `<font color=...>`) can match a branch whose name has no `>`.
`.error` models the `ValueError` raised by `int(·, 16)` on a bad color. -/
def applyTag (tag : List Char) (style : Style) : Except String Style :=
  if tag.take 2 = ['<', '/'] then .ok style
  else
    let tagName := ((pySplitWs (tag.drop 1)).headD []).map Char.toLower
    let tagAttrs := pyAttrs tag
    if tagName = "b".data ∨ tagName = "strong".data then
      .ok { style with bold := some true }
    else if tagName = "i".data ∨ tagName = "em".data then
      .ok { style with italic := some true }
    else if tagName = "s".data ∨ tagName = "strike".data ∨ tagName = "del".data then
      .ok { style with strikethrough := some true }
    else if tagName = "u".data then
      .ok { style with underline := some true }
    else if tagName = "h1".data then
      .ok { style with fontSize := some 24 }
    else if tagName = "h2".data then
      .ok { style with fontSize := some 20 }
    else if tagName = "h3".data then
      .ok { style with fontSize := some 16 }
    else if tagName = "small".data then
      .ok { style with fontSize := some 10 }
    else if tagName = "font".data then
      match pyDictGet tagAttrs ("color".data) with
      | none => .ok style
      | some color =>
        match decodeColor color with
        | none => .error "invalid literal for int() with base 16"
        | some rgb =>
          .ok { style with foregroundColor := some ⟨rgb.red, rgb.green, rgb.blue, some 1⟩ }
    else if tagName = "bg".data then
      match pyDictGet tagAttrs ("color".data) with
      | none => .ok style
      | some color =>
        match decodeColor color with
        | none => .error "invalid literal for int() with base 16"
        | some rgb =>
          .ok { style with backgroundColor := some ⟨rgb.red, rgb.green, rgb.blue, some 1⟩ }
    else if tagName = "center".data ∨ tagName = "left".data ∨ tagName = "right".data then
      .ok { style with horizontalAlignment := some (tagName.map Char.toUpper) }
    else
      .ok style

/-- One iteration of the scanning loop of `_parse_html_tags` (lines 310-317):
when both delimiters are present and a `>` exists at or after the first `<`,
extract `tag = content[start:end+1]` and return it with
`content[:start] + content[end+1:]`; `none` models both loop exits (missing
delimiter, or `find('>', start) == -1`). -/
def stripTagsStep (content : List Char) : Option (List Char × List Char) :=
  if '<' ∈ content ∧ '>' ∈ content then
    match pyFind '<' content with
    | none => none
    | some start =>
      match pyFindFrom '>' content start with
      | none => none
      | some e =>
        some ((content.drop start).take (e + 1 - start), content.take start ++ content.drop (e + 1))
  else none

/-- The scanning loop of `_parse_html_tags`, fuelled.  Each iteration removes at
least the two delimiter characters from `content`, so fuel `content.length`
always suffices (`parseLoop_fuel_irrelevant` below proves the result is
fuel-independent in that regime). -/
def parseLoop : Nat → List Char → Style → Except String (List Char × Style)
  | 0, content, style => .ok (content, style)
  | fuel + 1, content, style =>
    match stripTagsStep content with
    | none => .ok (content, style)
    | some (tag, rest) =>
      match applyTag tag style with
      | .error e => .error e
      | .ok st2 => parseLoop fuel rest st2

/-- The result dict of `_parse_html_tags`: `{'text': ..., 'style': ...}` with
`style = None` for an empty style dict. -/
structure ParsedText where
  text : List Char
  style : Option Style
deriving DecidableEq, Repr

/-- `GoogleSheets._parse_html_tags` (google_sheets.py lines 304-372). -/
def parse_html_tags (text : List Char) : Except String ParsedText :=
  match parseLoop text.length text {} with
  | .error e => .error e
  | .ok (content, style) =>
    .ok ⟨pyStrip content, if style = {} then none else some style⟩

/-- A `textFormat` dict as manipulated by `batch_update_cells` (google_sheets.py
lines 470-496); a `none` field models an absent key.  Only the keys the engine
reads or writes are modelled. -/
structure TextFormat where
  bold : Option Bool := none
  italic : Option Bool := none
  strikethrough : Option Bool := none
  underline : Option Bool := none
  fontSize : Option Nat := none
  foregroundColor : Option Color := none
deriving DecidableEq, Repr

/-- A `userEnteredFormat` dict of an emitted cell. -/
structure CellFormat where
  textFormat : Option TextFormat := none
  backgroundColor : Option Color := none
  horizontalAlignment : Option (List Char) := none
deriving DecidableEq, Repr

/-- One emitted cell: `userEnteredValue := none` models
`{'userEnteredValue': None}` (a cleared cell), and `userEnteredFormat := none`
models a cell dict that carries no `userEnteredFormat` key at all. -/
structure CellData where
  userEnteredValue : Option (List Char) := none
  userEnteredFormat : Option CellFormat := none
deriving DecidableEq, Repr

/-- Where a cell's `textFormat` value points.  In the source,
`cell_data['userEnteredFormat']['textFormat'] = format_config['textFormat']`
(line 471) binds the *same dict object* for every cell of the descriptor, and
the markup branch then mutates that object in place; `sharedRef` records this
object identity so that the final value of the shared dict can be substituted
when the request is read out.  `own` is the fresh `{}` dict created per cell at
line 478 when the caller's format has no `textFormat`. -/
inductive TFRef where
  | sharedRef : TFRef
  | own : TextFormat → TFRef
  | noneRef : TFRef
deriving DecidableEq, Repr

/-- The format part of one cell before the shared-dict substitution. -/
structure FmtRaw where
  tfRef : TFRef
  backgroundColor : Option Color := none
  horizontalAlignment : Option (List Char) := none
deriving DecidableEq, Repr

/-- One cell before the shared-dict substitution. -/
structure CellRaw where
  value? : Option (List Char) := none
  fmt? : Option FmtRaw := none
deriving DecidableEq, Repr

/-- Python dict-key assignment: the new value when the style has the key,
otherwise the old value. -/
def updKey {α : Type} (new old : Option α) : Option α :=
  match new with
  | some x => some x
  | none => old

/-- The markup-style application of lines 480-496: assign each `textFormat`
attribute present in the parsed style onto the target dict (bold, italic,
strikethrough, underline, fontSize, foregroundColor). -/
def applyMarkupTF (tf : TextFormat) (st : Style) : TextFormat :=
  ⟨updKey st.bold tf.bold, updKey st.italic tf.italic,
   updKey st.strikethrough tf.strikethrough, updKey st.underline tf.underline,
   updKey st.fontSize tf.fontSize, updKey st.foregroundColor tf.foregroundColor⟩

/-- The caller-supplied default format (`update.get('format', {})`); `none` at
the use sites models a falsy value (`None` or `{}`).  Only the two keys the
engine reads (lines 470-473) are modelled. -/
structure FormatConfig where
  textFormat : Option TextFormat := none
  backgroundColor : Option Color := none
deriving DecidableEq, Repr

/-- The per-cell body of the row loop of `batch_update_cells` (lines 456-506).
`bg0` is the caller's default `backgroundColor` (already gated on the format
being truthy), `shared` is the current value of the caller's shared `textFormat`
dict (present iff the truthy caller format had a `textFormat` key; returned
updated because the markup branch mutates it in place). -/
def buildCell (bg0 : Option Color) (shared : Option TextFormat) (v : List Char) :
    Except String (CellRaw × Option TextFormat) :=
  if v = [] then
    .ok (⟨none, none⟩, shared)
  else
    match parse_html_tags v with
    | .error e => .error e
    | .ok p =>
    match p.style with
    | none =>
      .ok (⟨some p.text,
            some ⟨if shared.isSome then .sharedRef else .noneRef, bg0, none⟩⟩, shared)
    | some st =>
      match shared with
      | some tf =>
        .ok (⟨some p.text,
              some ⟨.sharedRef, updKey st.backgroundColor bg0, st.horizontalAlignment⟩⟩,
             some (applyMarkupTF tf st))
      | none =>
        .ok (⟨some p.text,
              some ⟨.own (applyMarkupTF {} st), updKey st.backgroundColor bg0,
                    st.horizontalAlignment⟩⟩,
             none)

/-- One row of the loop, threading the shared `textFormat` dict left to right. -/
def buildRow (bg0 : Option Color) :
    Option TextFormat → List (List Char) → Except String (List CellRaw × Option TextFormat)
  | shared, [] => .ok ([], shared)
  | shared, v :: vs =>
    match buildCell bg0 shared v with
    | .error e => .error e
    | .ok (c, sh1) =>
      match buildRow bg0 sh1 vs with
      | .error e => .error e
      | .ok (cs, sh2) => .ok (c :: cs, sh2)

/-- All rows of one descriptor, threading the shared `textFormat` dict. -/
def buildGrid (bg0 : Option Color) :
    Option TextFormat → List (List (List Char)) →
    Except String (List (List CellRaw) × Option TextFormat)
  | shared, [] => .ok ([], shared)
  | shared, r :: rs =>
    match buildRow bg0 shared r with
    | .error e => .error e
    | .ok (cs, sh1) =>
      match buildGrid bg0 sh1 rs with
      | .error e => .error e
      | .ok (rest, sh2) => .ok (cs :: rest, sh2)

/-- Substitute the final value of the shared dict for each reference to it. -/
def resolveTF (fin : Option TextFormat) : TFRef → Option TextFormat
  | .sharedRef => fin
  | .own tf => some tf
  | .noneRef => none

/-- Read one cell out with the shared dict at its final value. -/
def resolveCell (fin : Option TextFormat) (c : CellRaw) : CellData :=
  ⟨c.value?, c.fmt?.map (fun f => ⟨resolveTF fin f.tfRef, f.backgroundColor, f.horizontalAlignment⟩)⟩

/-- The `rows` of one `updateCells` request (lines 453-507): process every cell,
then read the cells out; cells holding a reference to the caller's shared
`textFormat` dict show that dict's final value, because in the source they all
alias one object that each markup style mutated in place. -/
def buildRows (fc : Option FormatConfig) (values : List (List (List Char))) :
    Except String (List (List CellData)) :=
  match buildGrid (fc.bind (fun f => f.backgroundColor))
      (fc.bind (fun f => f.textFormat)) values with
  | .error e => .error e
  | .ok (raw, fin) => .ok (raw.map (fun r => r.map (resolveCell fin)))

/-- A `range` dict of an emitted request (lines 441-447 and 515-521). -/
structure GridRange where
  sheetId : Int
  startRowIndex : Int
  endRowIndex : Int
  startColumnIndex : Int
  endColumnIndex : Int
deriving DecidableEq, Repr

/-- One entry of the `requests` list built by `batch_update_cells`. -/
inductive Request where
  | updateCells : GridRange → List (List CellData) → Request
  | mergeCells : GridRange → Request
deriving DecidableEq, Repr

/-- The `range` field of an update descriptor: a notation string or an
already-structured dict (`isinstance(update['range'], str)` dispatch, line 429). -/
inductive RangeInput where
  | str : List Char → RangeInput
  | structured : RangeInfo → RangeInput
deriving DecidableEq, Repr

/-- One update descriptor from the `updates` list of `batch_update_cells`.
`range?`/`values?` are `none` when the dict lacks the key (such an entry is
skipped, line 427); `merge` and `format` model `update.get('merge', False)` and
`update.get('format', {})`, with `format := none` for a falsy value. -/
structure UpdateDesc where
  range? : Option RangeInput := none
  values? : Option (List (List (List Char))) := none
  merge : Bool := false
  format : Option FormatConfig := none

/-- The range resolution of one descriptor (lines 429-432): parse a string
range, pass a structured one through. -/
def resolveRange : RangeInput → Except String RangeInfo
  | .str s =>
    match parse_range s with
    | some ri => .ok ri
    | none => .error "invalid range string"
  | .structured ri => .ok ri

/-- The requests emitted for one update descriptor (lines 426-525): an
`updateCells` request with end indices bumped by 1 ("Add 1 because endRowIndex
is exclusive"), followed — when the merge flag is set — by a `mergeCells`
request over the same bumped range.  `.error` models an exception raised while
parsing the range or a cell value (it propagates to the caller's `except`). -/
def perUpdateRequests (sid : Int) (u : UpdateDesc) : Except String (List Request) :=
  match u.range?, u.values? with
  | some rin, some vals =>
    match resolveRange rin with
    | .error e => .error e
    | .ok ri =>
      match buildRows u.format vals with
      | .error e => .error e
      | .ok rows =>
        let rng : GridRange :=
          ⟨sid, ri.startRowIndex, ri.endRowIndex + 1, ri.startColumnIndex,
           ri.endColumnIndex + 1⟩
        .ok (Request.updateCells rng rows ::
          (if u.merge then [Request.mergeCells rng] else []))
  | _, _ => .ok []

/-- The full `requests` list of `batch_update_cells`: the per-descriptor
requests concatenated in descriptor order. -/
def batchBuildRequests (sid : Int) : List UpdateDesc → Except String (List Request)
  | [] => .ok []
  | u :: us =>
    match perUpdateRequests sid u with
    | .error e => .error e
    | .ok r =>
      match batchBuildRequests sid us with
      | .error e => .error e
      | .ok rest => .ok (r ++ rest)

/-- One entry of the `sheets` list of a spreadsheet, as read by the sheet-id
lookup loop (`sheet['properties']['title']` / `['sheetId']`). -/
structure SheetInfo where
  title : List Char
  sheetId : Int
deriving DecidableEq, Repr

/-- The spreadsheet metadata returned by the `spreadsheets().get` service call;
`sheets` models `spreadsheet.get('sheets', [])`. -/
structure SpreadsheetInfo where
  sheets : List SheetInfo
deriving DecidableEq, Repr

/-- The sheet-id lookup loop (google_sheets.py lines 235-239 and 409-413):
first sheet whose title equals the name, else `None`. -/
def findSheetId (sheets : List SheetInfo) (name : List Char) : Option Int :=
  (sheets.find? (fun s => s.title = name)).map (fun s => s.sheetId)

/-- The discriminated result dict of the try-wrapped public methods:
`{'success': True, 'result': ...}` or `{'success': False, 'error': ...}`.
For a successful cell update the payload we track is the emitted request list. -/
inductive MethodResult where
  | success : List Request → MethodResult
  | failure : String → MethodResult
deriving DecidableEq, Repr

/-- The `try: ... except Exception as e: return {'success': False, 'error': str(e)}`
wrapper shared by the public methods: a raised exception (`Except.error`)
becomes a returned failure dict. -/
def pyTry (body : Except String MethodResult) : Except String MethodResult :=
  match body with
  | .ok r => .ok r
  | .error e => .ok (.failure e)

/-- The dimension-mismatch message of `update_cells` (line 257): note it reports
`len(values[0])`, the first row's length. -/
def dimensionErrorMsg (expected : Int) (got : Nat) : String :=
  "Data dimensions do not match range. Expected " ++ toString expected ++
    " columns, got " ++ toString got

/-- `GoogleSheets.list_sheets` (google_sheets.py lines 14-16): no try/except, no
success flag — the service outcome is returned as a bare sheet list, and a
service exception (`Except.error`) propagates to the caller.  The `list_sheets`
tool in main.py (lines 112-122) returns this value unwrapped as well. -/
def list_sheets_m (svcGet : Except String SpreadsheetInfo) : Except String (List SheetInfo) := do
  let info ← svcGet
  .ok info.sheets

/-- `GoogleSheets.batch_update_cells` (google_sheets.py lines 403-562).
External effects are passed in: `svcGet` is the `spreadsheets().get` call
(`Except.error` = raised), `createSheet` is the `add_sheet` fallback (outer
`Except.error` = raised; the inner value is `add_sheet`'s own discriminated
result, reduced to the new sheet id or its error message), `transport` is the
outbound `batchUpdate().execute()` (its `Bool` is whether the response carried a
nonempty `replies`). -/
def batch_update_cells_m (svcGet : Except String SpreadsheetInfo)
    (createSheet : Except String (Except String Int))
    (transport : Except String Bool)
    (sheetName : List Char) (updates : List UpdateDesc) : Except String MethodResult :=
  pyTry (
    match svcGet with
    | .error e => .error e
    | .ok info =>
      match (match findSheetId info.sheets sheetName with
             | some sid => Except.ok (Except.ok sid)
             | none => createSheet) with
      | .error e => .error e
      | .ok (.error m) => .ok (.failure m)
      | .ok (.ok sid) =>
        match batchBuildRequests sid updates with
        | .error e => .error e
        | .ok reqs =>
          if reqs = [] then .ok (.failure "No valid update requests found")
          else
            match transport with
            | .error e => .error e
            | .ok hasReplies =>
              if hasReplies then .ok (.success reqs)
              else .ok (.failure "Failed to batch update cells"))

/-- The single update descriptor built by `update_cells` (lines 273-284): the
parsed range with both end indices bumped by 1 ("Add 1 because endRowIndex is
exclusive"), passed on as a structured range with `merge: False`.  (The dict in
the source also carries a `sheetId` key, which `batch_update_cells` never
reads.) -/
def mkSingleUpdate (ri : RangeInfo) (values : List (List (List Char)))
    (fmt : Option FormatConfig) : UpdateDesc :=
  { range? := some (.structured
      ⟨ri.startRowIndex, ri.endRowIndex + 1, ri.startColumnIndex, ri.endColumnIndex + 1⟩),
    values? := some values,
    merge := false,
    format := fmt }

/-- `GoogleSheets.update_cells` (google_sheets.py lines 228-302).  `fmt` is the
format parameter already in structured form (the source also accepts a
JSON-string encoding, decoded before use; none of the claims exercise that
branch).  After the per-call dimension validation it delegates to
`batch_update_cells` with the single descriptor of `mkSingleUpdate`. -/
def update_cells_m (svcGet : Except String SpreadsheetInfo)
    (createSheet : Except String (Except String Int))
    (transport : Except String Bool)
    (values : List (List (List Char))) (rangeName : List Char)
    (sheetName : List Char) (fmt : Option FormatConfig) : Except String MethodResult :=
  pyTry (
    match svcGet with
    | .error e => .error e
    | .ok info =>
      match findSheetId info.sheets sheetName with
      | none => .ok (.failure "Sheet not found")
      | some _ =>
        match parse_range rangeName with
        | none => .error "invalid range string"
        | some ri =>
          if values.any
              (fun row => (row.length : Int) ≠ ri.endColumnIndex - ri.startColumnIndex) then
            .ok (.failure (dimensionErrorMsg (ri.endColumnIndex - ri.startColumnIndex)
              (values.headD []).length))
          else
            batch_update_cells_m svcGet createSheet transport sheetName
              [mkSingleUpdate ri values fmt])

section Lemmas

lemma pySplit_not_mem {sep : Char} {l : List Char} (h : sep ∉ l) : pySplit sep l = [l] := by
  induction l with
  | nil => rfl
  | cons c cs ih =>
    have hc : c ≠ sep := fun e => h (e ▸ List.mem_cons_self c cs)
    have hcs : sep ∉ cs := fun hm => h (List.mem_cons_of_mem c hm)
    simp only [pySplit, if_neg hc, ih hcs]

lemma pySplit_append {sep : Char} {a b : List Char} (h : sep ∉ a) :
    pySplit sep (a ++ sep :: b) = a :: pySplit sep b := by
  induction a with
  | nil => simp [pySplit]
  | cons c cs ih =>
    have hc : c ≠ sep := fun e => h (e ▸ List.mem_cons_self c cs)
    have hcs : sep ∉ cs := fun hm => h (List.mem_cons_of_mem c hm)
    simp only [List.cons_append, pySplit, if_neg hc, List.append_eq, ih hcs]

lemma toUpper_of_upper {c : Char} (h : c.toNat ≤ 90) : c.toUpper = c := by
  unfold Char.toUpper
  rw [if_neg]
  omega

lemma ne_colon_of_upper {c : Char} (h1 : 65 ≤ c.toNat) : c ≠ ':' := by
  intro e
  subst e
  exact absurd h1 (by decide)

lemma ne_colon_of_digit {c : Char} (h : c.isDigit = true) : c ≠ ':' := by
  intro e
  subst e
  exact absurd h (by decide)

lemma colon_not_mem_ref {c : Char} {ds : List Char} (h1 : 65 ≤ c.toNat)
    (hdig : ds.all Char.isDigit = true) : ':' ∉ c :: ds := by
  intro hm
  rcases List.mem_cons.mp hm with he | hm'
  · exact ne_colon_of_upper h1 he.symm
  · exact ne_colon_of_digit (List.all_eq_true.mp hdig _ hm') rfl

lemma pyIntDec_digits {ds : List Char} (hne : ds ≠ []) (hdig : ds.all Char.isDigit = true) :
    pyIntDec ds = some (decVal ds) := by
  simp only [pyIntDec, if_pos (And.intro hne hdig)]

end Lemmas

/-- C1.  `_parse_range` on a single reference `"<Col><Row>"` (one uppercase
letter `A`-`Z`, i.e. code point in `[65, 90]`, then a nonempty positive run of
decimal digits) returns `startRow = row - 1`, `startCol = ord(letter) - 65`,
`endRow = startRow + 1`, `endCol = startCol + 1`; on a two-reference string
`"<Col><Row>:<Col><Row>"` the end indices are the second reference's parsed row
and column without the `+ 1`.  In particular `parse_range "A1"` is
`{startRow 0, endRow 1, startCol 0, endCol 1}` and `parse_range "A1:D1"` is
`{startRow 0, endRow 0, startCol 0, endCol 3}`. -/
theorem parse_range_forms :
    (∀ (c : Char) (ds : List Char),
        65 ≤ c.toNat → c.toNat ≤ 90 → ds ≠ [] → ds.all Char.isDigit = true →
        1 ≤ decVal ds →
        parse_range (c :: ds) =
          some ⟨(decVal ds : Int) - 1, (decVal ds : Int),
                (c.toNat : Int) - 65, ((c.toNat : Int) - 65) + 1⟩) ∧
    (∀ (c₁ c₂ : Char) (ds₁ ds₂ : List Char),
        65 ≤ c₁.toNat → c₁.toNat ≤ 90 → 65 ≤ c₂.toNat → c₂.toNat ≤ 90 →
        ds₁ ≠ [] → ds₁.all Char.isDigit = true → 1 ≤ decVal ds₁ →
        ds₂ ≠ [] → ds₂.all Char.isDigit = true → 1 ≤ decVal ds₂ →
        parse_range ((c₁ :: ds₁) ++ ':' :: c₂ :: ds₂) =
          some ⟨(decVal ds₁ : Int) - 1, (decVal ds₂ : Int) - 1,
                (c₁.toNat : Int) - 65, (c₂.toNat : Int) - 65⟩) ∧
    parse_range ("A1".data) = some ⟨0, 1, 0, 1⟩ ∧
    parse_range ("A1:D1".data) = some ⟨0, 0, 0, 3⟩ := by
  refine ⟨?_, ?_, by decide, by decide⟩
  · intro c ds h1 h2 hne hdig _
    have hcol := colon_not_mem_ref h1 hdig
    simp only [parse_range, if_neg hcol, List.head?, List.drop_one, List.tail_cons,
      pyIntDec_digits hne hdig, Option.bind_eq_bind, Option.some_bind, colIndex,
      toUpper_of_upper h2]
  · intro c₁ c₂ ds₁ ds₂ h11 h12 h21 h22 hne₁ hdig₁ _ hne₂ hdig₂ _
    have hcol₁ := colon_not_mem_ref h11 hdig₁
    have hcol₂ := colon_not_mem_ref h21 hdig₂
    have hmem : ':' ∈ (c₁ :: ds₁) ++ ':' :: c₂ :: ds₂ := by
      simp
    rw [parse_range, if_pos hmem, pySplit_append hcol₁, pySplit_not_mem hcol₂]
    simp only [List.head?, List.drop_one, List.tail_cons,
      pyIntDec_digits hne₁ hdig₁, pyIntDec_digits hne₂ hdig₂,
      Option.bind_eq_bind, Option.some_bind, colIndex,
      toUpper_of_upper h12, toUpper_of_upper h22]

/-- Witness for `parse_range_forms`: both quantified forms at concrete inputs
`"B2"` and `"B2:C34"`. -/
theorem parse_range_forms_witness :
    parse_range ("B2".data) = some ⟨1, 2, 1, 2⟩ ∧
    parse_range ("B2:C34".data) = some ⟨1, 33, 1, 2⟩ := by
  constructor
  · exact (parse_range_forms.1 'B' ['2'] (by decide) (by decide) (by decide)
      (by decide) (by decide)).trans (by decide)
  · exact (parse_range_forms.2.1 'B' 'C' ['2'] ['3', '4'] (by decide) (by decide)
      (by decide) (by decide) (by decide) (by decide) (by decide) (by decide)
      (by decide) (by decide)).trans (by decide)

/-- Recognizer for merge operations in an emitted request list. -/
def isMergeReq : Request → Bool
  | .mergeCells _ => true
  | _ => false

/-- C2.  For a well-formed update descriptor whose merge flag is set, the
requests emitted for that descriptor by `batch_update_cells` are exactly the
`updateCells` request followed by a single `mergeCells` request over the same
range: the one merge operation spans the descriptor's range and comes strictly
after every per-cell write/style operation for that range.  (The full batch,
`batchBuildRequests`, is by definition the concatenation of these
per-descriptor lists in descriptor order.) -/
theorem merge_after_writes (sid : Int) (u : UpdateDesc) (reqs : List Request)
    (hm : u.merge = true) (hr : u.range?.isSome) (hv : u.values?.isSome)
    (hok : perUpdateRequests sid u = .ok reqs) :
    ∃ rng rows, reqs = [Request.updateCells rng rows, Request.mergeCells rng] ∧
      reqs.countP (fun r => isMergeReq r) = 1 := by
  obtain ⟨rin, hrin⟩ := Option.isSome_iff_exists.mp hr
  obtain ⟨vals, hvals⟩ := Option.isSome_iff_exists.mp hv
  simp only [perUpdateRequests, hrin, hvals] at hok
  cases hri : resolveRange rin with
  | error e => simp [hri] at hok
  | ok ri =>
    cases hrows : buildRows u.format vals with
    | error e => simp [hri, hrows] at hok
    | ok rows =>
      simp only [hri, hrows, hm, if_true] at hok
      refine ⟨⟨sid, ri.startRowIndex, ri.endRowIndex + 1, ri.startColumnIndex,
        ri.endColumnIndex + 1⟩, rows, ?_, ?_⟩
      · exact (Except.ok.inj hok).symm
      · rw [← Except.ok.inj hok]
        rfl

/-- Witness for `merge_after_writes`: the descriptor `range "A1"`,
`values [["hi"]]`, `merge True` against sheet id 5. -/
theorem merge_after_writes_witness :
    ∃ rng rows,
      ([Request.updateCells ⟨5, 0, 2, 0, 2⟩
          [[{ userEnteredValue := some "hi".data, userEnteredFormat := some {} }]],
        Request.mergeCells ⟨5, 0, 2, 0, 2⟩] : List Request) =
        [Request.updateCells rng rows, Request.mergeCells rng] ∧
      ([Request.updateCells ⟨5, 0, 2, 0, 2⟩
          [[{ userEnteredValue := some "hi".data, userEnteredFormat := some {} }]],
        Request.mergeCells ⟨5, 0, 2, 0, 2⟩] : List Request).countP
          (fun r => isMergeReq r) = 1 :=
  merge_after_writes 5
    { range? := some (.str "A1".data), values? := some [["hi".data]], merge := true }
    _ rfl rfl rfl (by rfl)

/-- C3 counterexample.  A batch call whose single descriptor declares a 2-column
range (`endCol - startCol = 2`) but supplies a 3-column row does *not* fail:
`batch_update_cells` performs no dimension validation, builds the update request
for the mismatched grid, and (with a healthy transport) reports success.  This
falsifies the claim that every update call fails fast with a dimension error
before any operation is emitted. -/
theorem batch_no_dimension_check :
    batchBuildRequests 0
      [{ range? := some (.structured ⟨0, 2, 0, 2⟩),
         values? := some [["x".data, "y".data, "z".data]] }] =
      .ok [Request.updateCells ⟨0, 0, 3, 0, 3⟩
        [[{ userEnteredValue := some "x".data, userEnteredFormat := some {} },
          { userEnteredValue := some "y".data, userEnteredFormat := some {} },
          { userEnteredValue := some "z".data, userEnteredFormat := some {} }]]] ∧
    batch_update_cells_m (.ok ⟨[⟨"S".data, 0⟩]⟩) (.ok (.ok 0)) (.ok true) ("S".data)
      [{ range? := some (.structured ⟨0, 2, 0, 2⟩),
         values? := some [["x".data, "y".data, "z".data]] }] =
      .ok (.success [Request.updateCells ⟨0, 0, 3, 0, 3⟩
        [[{ userEnteredValue := some "x".data, userEnteredFormat := some {} },
          { userEnteredValue := some "y".data, userEnteredFormat := some {} },
          { userEnteredValue := some "z".data, userEnteredFormat := some {} }]]]) :=
  ⟨rfl, rfl⟩

/-- C3 (amended).  Only the single-range `update_cells` path validates
dimensions: when some row's column count differs from `endCol - startCol` of the
parsed range, the call returns a failure result whose message names the expected
count and the *first* row's length, and it does so for every `createSheet` and
`transport` behavior — no batch is built and the transport is never consulted.
(`batch_update_cells` itself performs no such check, see
`batch_no_dimension_check`.) -/
theorem update_cells_dimension_check
    (svcGet : Except String SpreadsheetInfo) (createSheet : Except String (Except String Int))
    (transport : Except String Bool) (values : List (List (List Char)))
    (rangeName sheetName : List Char) (fmt : Option FormatConfig)
    (info : SpreadsheetInfo) (sid : Int) (ri : RangeInfo)
    (hGet : svcGet = .ok info)
    (hFind : findSheetId info.sheets sheetName = some sid)
    (hParse : parse_range rangeName = some ri)
    (hrow : ∃ row ∈ values, (row.length : Int) ≠ ri.endColumnIndex - ri.startColumnIndex) :
    update_cells_m svcGet createSheet transport values rangeName sheetName fmt =
      .ok (.failure (dimensionErrorMsg (ri.endColumnIndex - ri.startColumnIndex)
        (values.headD []).length)) := by
  have hany : values.any
      (fun row => (row.length : Int) ≠ ri.endColumnIndex - ri.startColumnIndex) = true := by
    rw [List.any_eq_true]
    obtain ⟨row, hmem, hne⟩ := hrow
    exact ⟨row, hmem, by simpa using hne⟩
  simp only [update_cells_m, hGet, hFind, hParse, hany, if_true, pyTry]

/-- Witness for `update_cells_dimension_check`: a 1×3 grid against `"A1:C1"`
(declared width 2), with a transport that would raise if consulted. -/
theorem update_cells_dimension_check_witness :
    update_cells_m (.ok ⟨[⟨"S".data, 3⟩]⟩) (.ok (.ok 0)) (.error "ignored")
        [["a".data, "b".data, "c".data]] ("A1:C1".data) ("S".data) none =
      .ok (.failure (dimensionErrorMsg 2 3)) := by
  have h := update_cells_dimension_check (.ok ⟨[⟨"S".data, 3⟩]⟩) (.ok (.ok 0))
    (.error "ignored") [["a".data, "b".data, "c".data]] ("A1:C1".data) ("S".data) none
    ⟨[⟨"S".data, 3⟩]⟩ 3 ⟨0, 0, 0, 2⟩ rfl rfl (by decide)
    ⟨["a".data, "b".data, "c".data], by decide, by decide⟩
  exact h.trans (by norm_num)

/-- C10.  The exclusive-end adjustment is applied twice on the `update_cells`
path: `update_cells` bumps the parsed end indices by 1 (`mkSingleUpdate`), and
`batch_update_cells` bumps the structured range it receives by 1 again, so the
emitted `updateCells` range ends at the parser's output plus 2.  For `"A1"`
(parsed as `endRow 1, endCol 1`) the emitted range has `endRowIndex = 3` and
`endColumnIndex = 3` — a 3×3 target for a single-cell update. -/
theorem double_exclusive_adjustment :
    (∀ (sid : Int) (ri : RangeInfo) (values : List (List (List Char)))
        (fmt : Option FormatConfig) (reqs : List Request),
        perUpdateRequests sid (mkSingleUpdate ri values fmt) = .ok reqs →
        ∃ rows, reqs = [Request.updateCells
          ⟨sid, ri.startRowIndex, ri.endRowIndex + 2, ri.startColumnIndex,
           ri.endColumnIndex + 2⟩ rows]) ∧
    parse_range ("A1".data) = some ⟨0, 1, 0, 1⟩ ∧
    perUpdateRequests 7 (mkSingleUpdate ⟨0, 1, 0, 1⟩ [["x".data]] none) =
      .ok [Request.updateCells ⟨7, 0, 3, 0, 3⟩
        [[{ userEnteredValue := some "x".data, userEnteredFormat := some {} }]]] := by
  refine ⟨?_, by decide, by rfl⟩
  intro sid ri values fmt reqs hok
  simp only [perUpdateRequests, mkSingleUpdate, resolveRange] at hok
  cases hrows : buildRows fmt values with
  | error e => simp [hrows] at hok
  | ok rows =>
    simp only [hrows] at hok
    refine ⟨rows, ?_⟩
    rw [← Except.ok.inj hok]
    norm_num [add_assoc]

/-- Witness for `double_exclusive_adjustment`: its quantified part applied at
sheet id 7, parsed range of `"A1"`, a 1×1 grid, no format. -/
theorem double_exclusive_adjustment_witness :
    ∃ rows, ([Request.updateCells ⟨7, 0, 3, 0, 3⟩
        [[{ userEnteredValue := some "x".data, userEnteredFormat := some {} }]]] :
          List Request) =
      [Request.updateCells ⟨7, 0, 3, 0, 3⟩ rows] :=
  double_exclusive_adjustment.1 7 ⟨0, 1, 0, 1⟩ [["x".data]] none _ (by rfl)

lemma buildCell_empty (bg0 : Option Color) (sh : Option TextFormat) :
    buildCell bg0 sh [] = .ok (⟨none, none⟩, sh) := rfl

lemma buildRow_clears (bg0 : Option Color) :
    ∀ (vs : List (List Char)) (sh sh' : Option TextFormat) (cs : List CellRaw),
      buildRow bg0 sh vs = .ok (cs, sh') →
      ∀ j, vs.get? j = some [] → cs.get? j = some ⟨none, none⟩ := by
  intro vs
  induction vs with
  | nil =>
    intro sh sh' cs h j hj
    simp at hj
  | cons v vs ih =>
    intro sh sh' cs h j hj
    rw [buildRow] at h
    cases hc : buildCell bg0 sh v with
    | error e => simp [hc] at h
    | ok p =>
      obtain ⟨c, sh1⟩ := p
      cases hr : buildRow bg0 sh1 vs with
      | error e => simp [hc, hr] at h
      | ok q =>
        obtain ⟨cs2, sh2⟩ := q
        simp only [hc, hr, Except.ok.injEq, Prod.mk.injEq] at h
        obtain ⟨hcs, hsh⟩ := h
        subst hcs
        cases j with
        | zero =>
          have hv : v = [] := by simpa using hj
          rw [hv, buildCell_empty bg0 sh] at hc
          have hc2 : (⟨none, none⟩ : CellRaw) = c := congrArg Prod.fst (Except.ok.inj hc)
          simp [List.get?, ← hc2]
        | succ n =>
          have hj2 : vs.get? n = some [] := by simpa using hj
          simp only [List.get?]
          exact ih sh1 sh2 cs2 hr n hj2

lemma buildGrid_clears (bg0 : Option Color) :
    ∀ (rows : List (List (List Char))) (sh sh' : Option TextFormat)
      (out : List (List CellRaw)),
      buildGrid bg0 sh rows = .ok (out, sh') →
      ∀ i r, rows.get? i = some r →
        ∃ orow, out.get? i = some orow ∧
          ∀ j, r.get? j = some [] → orow.get? j = some ⟨none, none⟩ := by
  intro rows
  induction rows with
  | nil =>
    intro sh sh' out h i r hi
    simp at hi
  | cons r0 rs ih =>
    intro sh sh' out h i r hi
    rw [buildGrid] at h
    cases hc : buildRow bg0 sh r0 with
    | error e => simp [hc] at h
    | ok p =>
      obtain ⟨cs, sh1⟩ := p
      cases hr : buildGrid bg0 sh1 rs with
      | error e => simp [hc, hr] at h
      | ok q =>
        obtain ⟨rest, sh2⟩ := q
        simp only [hc, hr, Except.ok.injEq, Prod.mk.injEq] at h
        obtain ⟨hout, hsh⟩ := h
        subst hout
        cases i with
        | zero =>
          have hrr : r0 = r := by simpa using hi
          refine ⟨cs, by simp [List.get?], ?_⟩
          intro j hj
          exact buildRow_clears bg0 r0 sh sh1 cs hc j (hrr ▸ hj)
        | succ n =>
          have hi2 : rs.get? n = some r := by simpa using hi
          obtain ⟨orow, ho1, ho2⟩ := ih sh1 sh2 rest hr n r hi2
          exact ⟨orow, by simpa [List.get?] using ho1, ho2⟩

/-- C7.  For every cell of a descriptor's grid whose raw value is the empty
string, the emitted cell operation is a clear: `userEnteredValue` is null and
the cell dict carries no `userEnteredFormat` key (hence no style attributes),
whatever default format the caller supplied. -/
theorem empty_value_clears_cell (fc : Option FormatConfig)
    (values : List (List (List Char))) (rows : List (List CellData))
    (hok : buildRows fc values = .ok rows) (i j : Nat) (row : List (List Char))
    (hrow : values.get? i = some row) (hcell : row.get? j = some []) :
    ∃ orow, rows.get? i = some orow ∧
      orow.get? j = some { userEnteredValue := none, userEnteredFormat := none } := by
  rw [buildRows] at hok
  cases hg : buildGrid (fc.bind (fun f => f.backgroundColor))
      (fc.bind (fun f => f.textFormat)) values with
  | error e => rw [hg] at hok; exact absurd hok (by simp)
  | ok p =>
    obtain ⟨raw, fin⟩ := p
    rw [hg] at hok
    have hrows : rows = raw.map (fun r => r.map (resolveCell fin)) :=
      (Except.ok.inj hok).symm
    obtain ⟨orawRow, h1, h2⟩ := buildGrid_clears _ values _ _ raw hg i row hrow
    refine ⟨orawRow.map (resolveCell fin), ?_, ?_⟩
    · rw [hrows, List.get?_map, h1]
      rfl
    · rw [List.get?_map, h2 j hcell]
      rfl

/-- Witness for `empty_value_clears_cell`: a 1×1 grid holding the empty string
with a caller default format carrying both a bold text format and a background
color — the emitted cell is still a bare clear. -/
theorem empty_value_clears_cell_witness :
    ∃ orow, ([[({ userEnteredValue := none, userEnteredFormat := none } : CellData)]].get? 0
        = some orow) ∧
      orow.get? 0 = some { userEnteredValue := none, userEnteredFormat := none } :=
  empty_value_clears_cell
    (some { textFormat := some { bold := some true },
            backgroundColor := some ⟨1, 1, 1, none⟩ })
    [[[]]] [[⟨none, none⟩]] (by rfl) 0 0 [[]] rfl rfl

lemma parseLoop_no_step (n : Nat) (cs : List Char) (st : Style)
    (h : stripTagsStep cs = none) : parseLoop n cs st = .ok (cs, st) := by
  cases n with
  | zero => rfl
  | succ m => rw [parseLoop, h]

/-- C8 counterexample.  On the delimiter-free input `" X"` the markup parser
returns style `None` but text `"X"`: the text is stripped of surrounding
whitespace (`content.strip()`, line 370), not returned unmodified as the claim
states. -/
theorem no_delims_text_stripped :
    parse_html_tags (" X".data) = .ok ⟨"X".data, none⟩ ∧ "X".data ≠ " X".data :=
  ⟨rfl, by decide⟩

/-- C8 (amended).  For every input containing neither `<` nor `>`, the markup
parser returns style `None` and the text equal to the input stripped of leading
and trailing whitespace (so it is unmodified exactly when the input has no
surrounding whitespace). -/
theorem no_delims_strips (cs : List Char) (h1 : '<' ∉ cs) (h2 : '>' ∉ cs) :
    parse_html_tags cs = .ok ⟨pyStrip cs, none⟩ := by
  have hstep : stripTagsStep cs = none := by
    rw [stripTagsStep, if_neg]
    intro hcontra
    exact h1 hcontra.1
  rw [parse_html_tags, parseLoop_no_step cs.length cs {} hstep]
  rfl

/-- Witness for `no_delims_strips`: the delimiter-free input `" X"`. -/
theorem no_delims_strips_witness :
    parse_html_tags (" X".data) = .ok ⟨pyStrip (" X".data), none⟩ :=
  no_delims_strips (" X".data) (by decide) (by decide)

/-- C9 counterexample.  `list_sheets` has no try/except and no success flag:
when the service call raises, the exception escapes to the caller unchanged
(first conjunct), and on success the caller receives a bare sheet list rather
than a discriminated success/error result (second conjunct) — at both the
`GoogleSheets` layer and the tool layer in main.py, which returns this value
unwrapped. -/
theorem list_sheets_exception_escapes :
    list_sheets_m (.error "network error") = .error "network error" ∧
    list_sheets_m (.ok ⟨[⟨"S".data, 1⟩]⟩) = .ok [⟨"S".data, 1⟩] :=
  ⟨rfl, rfl⟩

lemma pyTry_never_raises (b : Except String MethodResult) : ∃ r, pyTry b = .ok r := by
  cases b with
  | ok r => exact ⟨r, rfl⟩
  | error e => exact ⟨.failure e, rfl⟩

/-- C9 (amended).  The try/except-wrapped public operations (modelled here by
`batch_update_cells_m` and `update_cells_m`; every public `GoogleSheets` method
except `list_sheets` carries the same wrapper) return a discriminated
`MethodResult` for every input and every behavior of the external calls — no
exception escapes.  `list_sheets` is the exception: it returns a bare list and
propagates service exceptions (`list_sheets_exception_escapes`). -/
theorem try_wrapped_methods_never_raise
    (svcGet : Except String SpreadsheetInfo)
    (createSheet : Except String (Except String Int)) (transport : Except String Bool)
    (sheetName rangeName : List Char) (updates : List UpdateDesc)
    (values : List (List (List Char))) (fmt : Option FormatConfig) :
    (∃ r, batch_update_cells_m svcGet createSheet transport sheetName updates = .ok r) ∧
    (∃ r, update_cells_m svcGet createSheet transport values rangeName sheetName fmt = .ok r) :=
  ⟨pyTry_never_raises _, pyTry_never_raises _⟩

/-- C5 counterexample.  A color string of 7 hexadecimal digits does not fail:
the decoder reads the slices `[0:2]`, `[2:4]`, `[4:6]` and ignores the seventh
digit, falsifying the claim that every digit part longer than 6 fails. -/
theorem decode_color_seven_digits :
    decodeColor ("1234567".data) = some ⟨mkChan 18, mkChan 52, mkChan 86⟩ ∧
    decodeColor ("1234567".data) ≠ none := by
  refine ⟨rfl, ?_⟩
  show (some ⟨mkChan 18, mkChan 52, mkChan 86⟩ : Option RGB) ≠ none
  simp

/-- C5 (amended).  After stripping an optional leading `#`: a string of exactly
6 hexadecimal digits decodes to `{red, green, blue}` with each channel
`int(pair, 16) / 255` (so `"#00FF80"` gives red 0, green 1, blue 128/255); a
digit part shorter than 5 characters fails, because its `[4:6]` slice is empty
(`"bad"` fails — as a raised `ValueError` surfaced through the generic caught
error result, there being no `ColorFormatError` class); but a digit part longer
than 6 does *not* fail — characters beyond the sixth are ignored (see
`decode_color_seven_digits`). -/
theorem decode_color_spec :
    (∀ (a b c d e f : Char), [a,b,c,d,e,f].all isHexDig = true →
        decodeColor ('#' :: [a,b,c,d,e,f]) =
          some ⟨mkChan (hexVal [a,b]), mkChan (hexVal [c,d]), mkChan (hexVal [e,f])⟩ ∧
        decodeColor [a,b,c,d,e,f] =
          some ⟨mkChan (hexVal [a,b]), mkChan (hexVal [c,d]), mkChan (hexVal [e,f])⟩) ∧
    (∀ cs : List Char,
        (if cs.head? = some '#' then cs.drop 1 else cs).length < 5 → decodeColor cs = none) ∧
    decodeColor ("#00FF80".data) = some ⟨mkChan 0, mkChan 255, mkChan 128⟩ ∧
    mkChan 0 = 0 ∧ mkChan 255 = 1 ∧ mkChan 128 = 128 / 255 ∧
    decodeColor ("bad".data) = none := by
  refine ⟨?_, ?_, rfl, by norm_num [mkChan], by norm_num [mkChan], by norm_num [mkChan], rfl⟩
  · intro a b c d e f hall
    simp only [List.all_cons, List.all_nil, Bool.and_true, Bool.and_eq_true] at hall
    obtain ⟨ha, hb, hc, hd, he, hf⟩ := hall
    have hne : a ≠ '#' := by
      intro h
      rw [h] at ha
      exact absurd ha (by decide)
    have e1 : pyIntHex [a, b] = some (hexVal [a, b]) := by simp [pyIntHex, ha, hb]
    have e2 : pyIntHex [c, d] = some (hexVal [c, d]) := by simp [pyIntHex, hc, hd]
    have e3 : pyIntHex [e, f] = some (hexVal [e, f]) := by simp [pyIntHex, he, hf]
    constructor
    · simp [decodeColor, e1, e2, e3]
    · simp [decodeColor, hne, e1, e2, e3]
  · intro cs hlen
    simp only [decodeColor]
    set x := if cs.head? = some '#' then cs.drop 1 else cs with hx
    have hnil : (x.drop 4).take 2 = [] := by
      rw [List.drop_eq_nil_of_le (by omega), List.take_nil]
    cases h1 : pyIntHex ((x.drop 0).take 2) with
    | none => simp [h1]
    | some r =>
      cases h2 : pyIntHex ((x.drop 2).take 2) with
      | none => simp [h1, h2]
      | some g => simp [h1, h2, hnil, pyIntHex]

/-- Witness for `decode_color_spec`: the 6-digit part at `"#00FF80"`'s digits
and the short-input part at `"bad"`. -/
theorem decode_color_spec_witness :
    decodeColor ('#' :: ['0','0','F','F','8','0']) =
      some ⟨mkChan (hexVal ['0','0']), mkChan (hexVal ['F','F']),
            mkChan (hexVal ['8','0'])⟩ ∧
    decodeColor ("bad".data) = none :=
  ⟨(decode_color_spec.1 '0' '0' 'F' 'F' '8' '0' (by decide)).1,
   decode_color_spec.2.1 ("bad".data) (by decide)⟩

/-- C4 (code bug).  The claimed per-cell key-by-key merge is broken by dict
aliasing in the source: line 471 binds the *same* caller `textFormat` dict
object into every cell, and the markup branch then mutates it in place, so one
cell's markup attributes leak into every other cell of the descriptor.  At the
failing input — default format `{'textFormat': {}}` and the two-cell row
`[<font '#FF0000'>A</font>, <font '#00FF00'>B</font>]` — the code emits
foregroundColor green for *both* cells (second conjunct), although cell 1's own
markup is red (first conjunct) and the claim requires cell 1's effective style
to be the merge of the default with its own markup.  Third conjunct: the two
colors really differ. -/
theorem shared_format_leak :
    parse_html_tags ("<font color='#FF0000'>A</font>".data) =
      .ok ⟨"A".data,
        some { foregroundColor := some ⟨mkChan 255, mkChan 0, mkChan 0, some 1⟩ }⟩ ∧
    buildRows (some { textFormat := some {} })
      [["<font color='#FF0000'>A</font>".data, "<font color='#00FF00'>B</font>".data]] =
      .ok [[{ userEnteredValue := some "A".data,
              userEnteredFormat := some
                ⟨some { foregroundColor := some ⟨mkChan 0, mkChan 255, mkChan 0, some 1⟩ },
                 none, none⟩ },
            { userEnteredValue := some "B".data,
              userEnteredFormat := some
                ⟨some { foregroundColor := some ⟨mkChan 0, mkChan 255, mkChan 0, some 1⟩ },
                 none, none⟩ }]] ∧
    (⟨mkChan 0, mkChan 255, mkChan 0, some 1⟩ : Color) ≠
      ⟨mkChan 255, mkChan 0, mkChan 0, some 1⟩ := by
  refine ⟨rfl, rfl, ?_⟩
  intro h
  have h2 : mkChan 0 = mkChan 255 := congrArg Color.red h
  norm_num [mkChan] at h2

/-- C6 counterexample.  The color object the markup parser attaches for
`<font color='#FF0000'>` carries an `alpha` key fixed at 1
(`{'red': r, 'green': g, 'blue': b, 'alpha': 1}`, line 356), so the produced
foregroundColor does not consist of exactly the three RGB channels: the claim's
"no alpha channel" is false. -/
theorem font_color_carries_alpha :
    parse_html_tags ("<font color='#FF0000'>X</font>".data) =
      .ok ⟨"X".data,
        some { foregroundColor := some ⟨mkChan 255, mkChan 0, mkChan 0, some 1⟩ }⟩ ∧
    (⟨mkChan 255, mkChan 0, mkChan 0, some 1⟩ : Color).alpha ≠ none :=
  ⟨rfl, by simp⟩

lemma hex_ne (x y : Char) (hx : isHexDig x = true) (hy : isHexDig y = false) : x ≠ y := by
  intro e
  rw [e] at hx
  exact Bool.false_ne_true (hy.symm.trans hx)

lemma hex_not_ws (x : Char) (hx : isHexDig x = true) : x.isWhitespace = false := by
  cases hw : x.isWhitespace
  · rfl
  · exfalso
    simp only [Char.isWhitespace, Bool.or_eq_true, decide_eq_true_eq] at hw
    obtain ((h | h) | h) | h := hw <;> exact hex_ne x _ hx (by decide) h

lemma applyTag_font (st : Style) (a b c d e f : Char)
    (h : [a,b,c,d,e,f].all isHexDig = true) :
    applyTag ("<font color='#".data ++ [a,b,c,d,e,f] ++ "'>".data) st =
      Except.ok { st with foregroundColor := some ⟨mkChan (hexVal [a,b]), mkChan (hexVal [c,d]), mkChan (hexVal [e,f]), some 1⟩ } := by
  simp only [List.all_cons, List.all_nil, Bool.and_true, Bool.and_eq_true] at h
  obtain ⟨ha, hb, hc, hd, he, hf⟩ := h
  have e1 : pyIntHex [a, b] = some (hexVal [a, b]) := by simp [pyIntHex, ha, hb]
  have e2 : pyIntHex [c, d] = some (hexVal [c, d]) := by simp [pyIntHex, hc, hd]
  have e3 : pyIntHex [e, f] = some (hexVal [e, f]) := by simp [pyIntHex, he, hf]
  show applyTag ('<' :: 'f' :: 'o' :: 'n' :: 't' :: ' ' :: 'c' :: 'o' :: 'l' :: 'o' :: 'r'
      :: '=' :: '\'' :: '#' :: a :: b :: c :: d :: e :: f :: '\'' :: '>' :: []) st = _
  simp [applyTag, pySplitWs, pySplitWsAux, pyAttrs, pyFind, pyFindFrom, pyFindFrom.go,
    pyDictGet, pyStripQuotes, pyStripSet, List.filter, decodeColor,
    hex_not_ws a ha, hex_not_ws b hb, hex_not_ws c hc, hex_not_ws d hd,
    hex_not_ws e he, hex_not_ws f hf,
    hex_ne a '\'' ha (by decide), hex_ne b '\'' hb (by decide), hex_ne c '\'' hc (by decide),
    hex_ne d '\'' hd (by decide), hex_ne e '\'' he (by decide), hex_ne f '\'' hf (by decide),
    hex_ne a '"' ha (by decide), hex_ne b '"' hb (by decide), hex_ne c '"' hc (by decide),
    hex_ne d '"' hd (by decide), hex_ne e '"' he (by decide), hex_ne f '"' hf (by decide),
    hex_ne a '>' ha (by decide), hex_ne b '>' hb (by decide), hex_ne c '>' hc (by decide),
    hex_ne d '>' hd (by decide), hex_ne e '>' he (by decide), hex_ne f '>' hf (by decide),
    hex_ne a '=' ha (by decide), hex_ne b '=' hb (by decide), hex_ne c '=' hc (by decide),
    hex_ne d '=' hd (by decide), hex_ne e '=' he (by decide), hex_ne f '=' hf (by decide),
    e1, e2, e3]

lemma applyTag_bg (st : Style) (a b c d e f : Char)
    (h : [a,b,c,d,e,f].all isHexDig = true) :
    applyTag ("<bg color='#".data ++ [a,b,c,d,e,f] ++ "'>".data) st =
      Except.ok { st with backgroundColor := some ⟨mkChan (hexVal [a,b]), mkChan (hexVal [c,d]), mkChan (hexVal [e,f]), some 1⟩ } := by
  simp only [List.all_cons, List.all_nil, Bool.and_true, Bool.and_eq_true] at h
  obtain ⟨ha, hb, hc, hd, he, hf⟩ := h
  have e1 : pyIntHex [a, b] = some (hexVal [a, b]) := by simp [pyIntHex, ha, hb]
  have e2 : pyIntHex [c, d] = some (hexVal [c, d]) := by simp [pyIntHex, hc, hd]
  have e3 : pyIntHex [e, f] = some (hexVal [e, f]) := by simp [pyIntHex, he, hf]
  show applyTag ('<' :: 'b' :: 'g' :: ' ' :: 'c' :: 'o' :: 'l' :: 'o' :: 'r'
      :: '=' :: '\'' :: '#' :: a :: b :: c :: d :: e :: f :: '\'' :: '>' :: []) st = _
  simp [applyTag, pySplitWs, pySplitWsAux, pyAttrs, pyFind, pyFindFrom, pyFindFrom.go,
    pyDictGet, pyStripQuotes, pyStripSet, List.filter, decodeColor,
    hex_not_ws a ha, hex_not_ws b hb, hex_not_ws c hc, hex_not_ws d hd,
    hex_not_ws e he, hex_not_ws f hf,
    hex_ne a '\'' ha (by decide), hex_ne b '\'' hb (by decide), hex_ne c '\'' hc (by decide),
    hex_ne d '\'' hd (by decide), hex_ne e '\'' he (by decide), hex_ne f '\'' hf (by decide),
    hex_ne a '"' ha (by decide), hex_ne b '"' hb (by decide), hex_ne c '"' hc (by decide),
    hex_ne d '"' hd (by decide), hex_ne e '"' he (by decide), hex_ne f '"' hf (by decide),
    hex_ne a '>' ha (by decide), hex_ne b '>' hb (by decide), hex_ne c '>' hc (by decide),
    hex_ne d '>' hd (by decide), hex_ne e '>' he (by decide), hex_ne f '>' hf (by decide),
    hex_ne a '=' ha (by decide), hex_ne b '=' hb (by decide), hex_ne c '=' hc (by decide),
    hex_ne d '=' hd (by decide), hex_ne e '=' he (by decide), hex_ne f '=' hf (by decide),
    e1, e2, e3]

/-- C6 (amended).  For every `font` or `bg` tag carrying `color='#RRGGBB'`
(six hexadecimal digits), the markup parser produces a
foregroundColor/backgroundColor consisting of the red, green and blue channels
`int(pair, 16) / 255` *plus* an `alpha` channel fixed at 1; in particular
`parseMarkup("<font color='#FF0000'>X</font>")` returns text `"X"` with style
`{foregroundColor: {red 1, green 0, blue 0, alpha 1}}`. -/
theorem font_bg_color_channels :
    (∀ (st : Style) (a b c d e f : Char), [a,b,c,d,e,f].all isHexDig = true →
      applyTag ("<font color='#".data ++ [a,b,c,d,e,f] ++ "'>".data) st =
        Except.ok { st with foregroundColor := some ⟨mkChan (hexVal [a,b]), mkChan (hexVal [c,d]), mkChan (hexVal [e,f]), some 1⟩ }) ∧
    (∀ (st : Style) (a b c d e f : Char), [a,b,c,d,e,f].all isHexDig = true →
      applyTag ("<bg color='#".data ++ [a,b,c,d,e,f] ++ "'>".data) st =
        Except.ok { st with backgroundColor := some ⟨mkChan (hexVal [a,b]), mkChan (hexVal [c,d]), mkChan (hexVal [e,f]), some 1⟩ }) ∧
    parse_html_tags ("<font color='#FF0000'>X</font>".data) =
      .ok ⟨"X".data,
        some { foregroundColor := some ⟨mkChan 255, mkChan 0, mkChan 0, some 1⟩ }⟩ ∧
    mkChan 255 = 1 ∧ mkChan 0 = 0 :=
  ⟨applyTag_font, applyTag_bg, rfl, by norm_num [mkChan], by norm_num [mkChan]⟩

/-- Witness for `font_bg_color_channels`: the font part at `'#FF0000'` over the
empty style and the bg part at `'#00FF00'` over the empty style. -/
theorem font_bg_color_channels_witness :
    applyTag ("<font color='#".data ++ ['F','F','0','0','0','0'] ++ "'>".data) {} =
      Except.ok { foregroundColor := some ⟨mkChan (hexVal ['F','F']), mkChan (hexVal ['0','0']), mkChan (hexVal ['0','0']), some 1⟩ } ∧
    applyTag ("<bg color='#".data ++ ['0','0','F','F','0','0'] ++ "'>".data) {} =
      Except.ok { backgroundColor := some ⟨mkChan (hexVal ['0','0']), mkChan (hexVal ['F','F']), mkChan (hexVal ['0','0']), some 1⟩ } :=
  ⟨font_bg_color_channels.1 {} 'F' 'F' '0' '0' '0' '0' (by decide),
   font_bg_color_channels.2.1 {} '0' '0' 'F' 'F' '0' '0' (by decide)⟩

lemma pyFindFrom_go_lt (c : Char) (start : Nat) :
    ∀ (cs : List Char) (i j : Nat), pyFindFrom.go c start cs i = some j →
      i ≤ j ∧ j < i + cs.length ∧ start ≤ j := by
  intro cs
  induction cs with
  | nil => intro i j h; simp [pyFindFrom.go] at h
  | cons x xs ih =>
    intro i j h
    rw [pyFindFrom.go] at h
    by_cases hc : start ≤ i ∧ x = c
    · rw [if_pos hc] at h
      have hij : i = j := Option.some.inj h
      subst hij
      refine ⟨Nat.le_refl i, by simp, hc.1⟩
    · rw [if_neg hc] at h
      obtain ⟨h1, h2, h3⟩ := ih (i + 1) j h
      refine ⟨by omega, ?_, h3⟩
      simp only [List.length_cons]
      omega

lemma pyFindFrom_lt (c : Char) (cs : List Char) (start j : Nat)
    (h : pyFindFrom c cs start = some j) : j < cs.length := by
  have h2 := (pyFindFrom_go_lt c start cs 0 j h).2.1
  omega

lemma stripTagsStep_shrinks (cs tag rest : List Char)
    (h : stripTagsStep cs = some (tag, rest)) : rest.length < cs.length := by
  rw [stripTagsStep] at h
  by_cases hcond : '<' ∈ cs ∧ '>' ∈ cs
  · rw [if_pos hcond] at h
    cases hf : pyFind '<' cs with
    | none => simp [hf] at h
    | some start =>
      cases hg : pyFindFrom '>' cs start with
      | none => simp [hf, hg] at h
      | some e =>
        simp only [hf, hg, Option.some.injEq, Prod.mk.injEq] at h
        obtain ⟨htag, hrest⟩ := h
        have hse : start ≤ e := (pyFindFrom_go_lt '>' start cs 0 e hg).2.2
        have hel : e < cs.length := pyFindFrom_lt '>' cs start e hg
        rw [← hrest, List.length_append, List.length_take, List.length_drop]
        omega
  · rw [if_neg hcond] at h
    exact absurd h (by simp)

lemma parseLoop_fuel_irrelevant :
    ∀ (n : Nat) (cs : List Char) (st : Style), cs.length ≤ n →
      parseLoop n cs st = parseLoop cs.length cs st := by
  intro n
  induction n using Nat.strong_induction_on with
  | _ n ih =>
    intro cs st hn
    cases n with
    | zero =>
      have : cs = [] := List.length_eq_zero.mp (Nat.le_zero.mp hn)
      subst this
      rfl
    | succ m =>
      cases hlen : cs.length with
      | zero =>
        have : cs = [] := List.length_eq_zero.mp hlen
        subst this
        rfl
      | succ k =>
        rw [parseLoop, parseLoop]
        cases hs : stripTagsStep cs with
        | none => rfl
        | some p =>
          obtain ⟨tag, rest⟩ := p
          show (match applyTag tag st with
                | Except.error e => Except.error e
                | Except.ok st2 => parseLoop m rest st2) =
              (match applyTag tag st with
                | Except.error e => Except.error e
                | Except.ok st2 => parseLoop k rest st2)
          cases ha : applyTag tag st with
          | error e => rfl
          | ok st2 =>
            have hshrink := stripTagsStep_shrinks cs tag rest hs
            rw [hlen] at hshrink
            have e1 : parseLoop m rest st2 = parseLoop rest.length rest st2 :=
              ih m (by omega) rest st2 (by omega)
            have e2 : parseLoop k rest st2 = parseLoop rest.length rest st2 :=
              ih k (by omega) rest st2 (by omega)
            exact e1.trans e2.symm

/-- Witness for `try_wrapped_methods_never_raise`: both wrapped methods at a
service stub that raises — each still returns a discriminated result. -/
theorem try_wrapped_methods_never_raise_witness :
    (∃ r, batch_update_cells_m (.error "boom") (.ok (.ok 0)) (.ok true) ("S".data) [] = .ok r) ∧
    (∃ r, update_cells_m (.error "boom") (.ok (.ok 0)) (.ok true) [] ("A1".data) ("S".data) none = .ok r) :=
  try_wrapped_methods_never_raise (.error "boom") (.ok (.ok 0)) (.ok true)
    ("S".data) ("A1".data) [] [] none
